import Mathlib

/-!
# opencode-brain: shallow embedding and verification

A shallow embedding of the compression, deduplication, locking and
open/recovery logic of the opencode-brain plugin, with theorems settling the
specification claims.

Modeling conventions:

* JavaScript strings are modeled as `List Char` (`Str` below); `.length` is
  `List.length`, `.slice(0, n)` is `List.take n`, `.slice(-n)` is
  `List.drop (length - n)` (which, like the JS original, returns the whole
  string when it is shorter than `n`).
* `String.prototype.split(sep)` for a one-character separator is
  `splitOnChar`; `Array.prototype.join(sep)` is `List.intercalate`.
* JS truthiness of a possibly-missing string (`undefined` and `""` are falsy)
  is `truthyStr : Option Str → Bool`.
* `Array.prototype.sort` with comparator `(a, b) => key b - key a` (a stable
  sort, descending by key) is `List.insertionSort (fun a b => key b ≤ key a)`,
  which produces the same (unique) stable descending order.
-/

set_option autoImplicit false

namespace OpencodeBrain

/-- JS strings, modeled as lists of characters. -/
abbrev Str := List Char

/-- Coerce a Lean string literal into the JS string model. -/
def strOf (s : String) : Str := s.data

/-- `leadsWith pat s` is true when `pat` is a leading segment of `s`. -/
def leadsWith : Str → Str → Bool
  | [], _ => true
  | _ :: _, [] => false
  | p :: ps, c :: cs => p == c && leadsWith ps cs

/-- `strHas pat s`: JS `s.includes(pat)` (contiguous substring test). -/
def strHas (pat : Str) : Str → Bool
  | [] => leadsWith pat []
  | c :: rest => leadsWith pat (c :: rest) || strHas pat rest

/-- JS `s.toLowerCase()` (ASCII-adequate model). -/
def toLowerStr (s : Str) : Str := s.map Char.toLower

/-- JS `s.split(sep)` for a one-character separator `c`. -/
def splitOnChar (c : Char) : Str → List Str
  | [] => [[]]
  | a :: rest =>
    if a == c then [] :: splitOnChar c rest
    else
      match splitOnChar c rest with
      | [] => [[a]]
      | s :: ss => (a :: s) :: ss

/-- JS `s.trim()` (whitespace stripped from both ends). -/
def strTrim (s : Str) : Str :=
  ((s.dropWhile Char.isWhitespace).reverse.dropWhile Char.isWhitespace).reverse

/-- Render a number into the string model (JS template interpolation). -/
def natStr (n : Nat) : Str := (Nat.repr n).data

/-- JS truthiness of a possibly-absent string: `undefined` and `""` are falsy. -/
def truthyStr : Option Str → Bool
  | none => false
  | some s => !s.isEmpty

/-- JS `a || b` over possibly-absent strings. -/
def jsOrStr (a b : Option Str) : Option Str :=
  if truthyStr a then a else b

/-! ## Regex building blocks

The compression strategies in `src/utils/compression.ts` use line-anchored
regular expressions (`gm` flag).  We model each regex by an explicit parser
over a single line.  Each combinator consumes a piece of the line and returns
`(consumed, rest)`; `none` means the regex does not match.  Greedy `\s+`,
`\s*`, `\w+` and `[^)]*` are modeled by maximal-munch `takeWhile`, which is
exact here because each is always followed by a literal that its own
character class cannot match.  Optional groups `(lit\s+)?` are modeled with
the backtracking JS semantics: first try with the group, then without. -/

/-- Consume an exact literal. -/
def takeLit (lit : Str) (s : Str) : Option (Str × Str) :=
  if leadsWith lit s then some (lit, s.drop lit.length) else none

/-- Consume one-or-more characters satisfying `p` (regex `p+`, greedy). -/
def takeCharsPlus (p : Char → Bool) (s : Str) : Option (Str × Str) :=
  let tk := s.takeWhile p
  if tk.isEmpty then none else some (tk, s.dropWhile p)

/-- Consume zero-or-more characters satisfying `p` (regex `p*`, greedy). -/
def takeCharsStar (p : Char → Bool) (s : Str) : Str × Str :=
  (s.takeWhile p, s.dropWhile p)

/-- JS regex `\w`: `[A-Za-z0-9_]`. -/
def isWordChar (c : Char) : Bool := c.isAlphanum || c == '_'

/-- First alternative of a literal alternation that matches (the alternation
sets used in `compression.ts` are prefix-free, so at most one can match). -/
def takeKeyword (kws : List Str) (s : Str) : Option (Str × Str) :=
  match kws with
  | [] => none
  | k :: rest =>
    match takeLit k s with
    | some r => some r
    | none => takeKeyword rest s

/-- Optional group `(lit\s+)?` followed by continuation `k`, with JS
backtracking: if taking the group makes `k` fail, retry without it. -/
def tryOptThen (lit : Str) (k : Str → Option Str) (s : Str) : Option Str :=
  match takeLit lit s with
  | some (d, rd) =>
    (match takeCharsPlus Char.isWhitespace rd with
     | some (w, rw) =>
       (match k rw with
        | some t => some (d ++ w ++ t)
        | none => k s)
     | none => k s)
  | none => k s

/-- Optional literal alternation `(a|b|c)?` (no whitespace requirement)
followed by continuation `k`, with JS backtracking. -/
def tryAltThen (alts : List Str) (k : Str → Option Str) (s : Str) : Option Str :=
  match takeKeyword alts s with
  | some (m, rm) =>
    (match k rm with
     | some t => some (m ++ t)
     | none => k s)
  | none => k s

/-- Optional group `(lit\s+)?` whose consumed text is dropped (used when only
a later capture group is kept), with JS backtracking. -/
def tryOptDrop (lit : Str) (k : Str → Option Str) (s : Str) : Option Str :=
  match takeLit lit s with
  | some (_, rd) =>
    (match takeCharsPlus Char.isWhitespace rd with
     | some (_, rw) => ((k rw).orElse (fun _ => k s))
     | none => k s)
  | none => k s

/-! ## Extraction helpers (`compression.ts`, `extract*`) -/

/-- `^import\s+.+$` (whole-line match). -/
def matchImportLine (l : Str) : Option Str := do
  let (_, r1) ← takeLit (strOf "import") l
  match r1 with
  | c :: _ :: _ => if c.isWhitespace then some l else none
  | _ => none

/-- `^const\s+\w+\s*=\s*require\(.+\)$` (whole-line match). -/
def matchRequireLine (l : Str) : Option Str := do
  let (_, r1) ← takeLit (strOf "const") l
  let (_, r2) ← takeCharsPlus Char.isWhitespace r1
  let (_, r3) ← takeCharsPlus isWordChar r2
  let (_, r4) := takeCharsStar Char.isWhitespace r3
  let (_, r5) ← takeLit (strOf "=") r4
  let (_, r6) := takeCharsStar Char.isWhitespace r5
  let (_, r7) ← takeLit (strOf "require(") r6
  if r7.length ≥ 2 && r7.getLast? == some ')' then some l else none

/-- `^use\s+.+;$` (whole-line match). -/
def matchUseLine (l : Str) : Option Str := do
  let (_, r) ← takeLit (strOf "use") l
  match r with
  | c :: rest =>
    if c.isWhitespace && rest.length ≥ 2 && rest.getLast? == some ';' then some l
    else none
  | _ => none

def extractImports (code : Str) : List Str :=
  let lines := splitOnChar '\n' code
  lines.filterMap matchImportLine
    ++ lines.filterMap matchRequireLine
    ++ lines.filterMap matchUseLine

def EXPORT_KEYWORDS : List Str :=
  [strOf "function", strOf "class", strOf "const", strOf "let", strOf "var",
   strOf "interface", strOf "type"]

/-- Tail of the export regex after the optional groups:
`(function|class|const|let|var|interface|type)\s+\w+` (matched text). -/
def exportKeywordTail (r : Str) : Option Str := do
  let (a1, r1) ← takeKeyword EXPORT_KEYWORDS r
  let (a2, r2) ← takeCharsPlus Char.isWhitespace r1
  let (a3, _) ← takeCharsPlus isWordChar r2
  some (a1 ++ a2 ++ a3)

/-- `^export\s+(default\s+)?(function|class|...)\s+\w+` (prefix match). -/
def matchExportLine (l : Str) : Option Str := do
  let (a1, r1) ← takeLit (strOf "export") l
  let (a2, r2) ← takeCharsPlus Char.isWhitespace r1
  match tryOptThen (strOf "default") exportKeywordTail r2 with
  | some t => some (a1 ++ a2 ++ t)
  | none => none

def RUST_PUB_KEYWORDS : List Str :=
  [strOf "fn", strOf "struct", strOf "enum", strOf "trait"]

/-- `^pub\s+(fn|struct|enum|trait)\s+\w+` (prefix match). -/
def matchPubLine (l : Str) : Option Str := do
  let (a1, r1) ← takeLit (strOf "pub") l
  let (a2, r2) ← takeCharsPlus Char.isWhitespace r1
  let (a3, r3) ← takeKeyword RUST_PUB_KEYWORDS r2
  let (a4, r4) ← takeCharsPlus Char.isWhitespace r3
  let (a5, _) ← takeCharsPlus isWordChar r4
  some (a1 ++ a2 ++ a3 ++ a4 ++ a5)

/-- `^module\.exports\s*=` (prefix match; the `\.` is a literal dot). -/
def matchModuleExportsLine (l : Str) : Option Str := do
  let (a1, r1) ← takeLit (strOf "module.exports") l
  let (a2, r2) := takeCharsStar Char.isWhitespace r1
  let (a3, _) ← takeLit (strOf "=") r2
  some (a1 ++ a2 ++ a3)

def extractExports (code : Str) : List Str :=
  let lines := splitOnChar '\n' code
  lines.filterMap matchExportLine
    ++ lines.filterMap matchPubLine
    ++ lines.filterMap matchModuleExportsLine

/-- Tail of the function regex: `function\s+\w+\s*\([^)]*\)` (matched text). -/
def functionDeclTail (r : Str) : Option Str := do
  let (a1, r1) ← takeLit (strOf "function") r
  let (a2, r2) ← takeCharsPlus Char.isWhitespace r1
  let (a3, r3) ← takeCharsPlus isWordChar r2
  let (a4, r4) := takeCharsStar Char.isWhitespace r3
  let (a5, r5) ← takeLit (strOf "(") r4
  let (a6, r6) := takeCharsStar (fun c => c != ')') r5
  let (a7, _) ← takeLit (strOf ")") r6
  some (a1 ++ a2 ++ a3 ++ a4 ++ a5 ++ a6 ++ a7)

/-- `^(export\s+)?(async\s+)?function\s+\w+\s*\([^)]*\)` (prefix match). -/
def matchFunctionDecl (l : Str) : Option Str :=
  tryOptThen (strOf "export") (tryOptThen (strOf "async") functionDeclTail) l

def ACCESS_MODIFIERS : List Str :=
  [strOf "public", strOf "private", strOf "protected"]

/-- Tail of the method regex after the leading whitespace and optional
modifier: `\s*(async\s+)?\w+\s*\([^)]*\)\s*[:\x7b]` (matched text). -/
def methodDeclTail (r : Str) : Option Str :=
  let (a0, r0) := takeCharsStar Char.isWhitespace r
  let core : Str → Option Str := fun rc => do
    let (a1, r1) ← takeCharsPlus isWordChar rc
    let (a2, r2) := takeCharsStar Char.isWhitespace r1
    let (a3, r3) ← takeLit (strOf "(") r2
    let (a4, r4) := takeCharsStar (fun c => c != ')') r3
    let (a5, r5) ← takeLit (strOf ")") r4
    let (a6, r6) := takeCharsStar Char.isWhitespace r5
    match r6 with
    | c :: _ =>
      if c == ':' || c == '{' then some (a1 ++ a2 ++ a3 ++ a4 ++ a5 ++ a6 ++ [c])
      else none
    | [] => none
  (tryOptThen (strOf "async") core r0).map (fun t => a0 ++ t)

/-- `^\s*(public|private|protected)?\s*(async\s+)?\w+\s*\([^)]*\)\s*[:\x7b]`
(prefix match). -/
def matchMethodDecl (l : Str) : Option Str :=
  let (a0, r0) := takeCharsStar Char.isWhitespace l
  (tryAltThen ACCESS_MODIFIERS methodDeclTail r0).map (fun t => a0 ++ t)

/-- `^(pub\s+)?fn\s+\w+\s*[<(]` (prefix match). -/
def matchFnDecl (l : Str) : Option Str :=
  tryOptThen (strOf "pub")
    (fun r => do
      let (a1, r1) ← takeLit (strOf "fn") r
      let (a2, r2) ← takeCharsPlus Char.isWhitespace r1
      let (a3, r3) ← takeCharsPlus isWordChar r2
      let (a4, r4) := takeCharsStar Char.isWhitespace r3
      match r4 with
      | c :: _ => if c == '<' || c == '(' then some (a1 ++ a2 ++ a3 ++ a4 ++ [c]) else none
      | [] => none)
    l

/-- `^def\s+\w+\s*\(` (prefix match). -/
def matchDefDecl (l : Str) : Option Str := do
  let (a1, r1) ← takeLit (strOf "def") l
  let (a2, r2) ← takeCharsPlus Char.isWhitespace r1
  let (a3, r3) ← takeCharsPlus isWordChar r2
  let (a4, r4) := takeCharsStar Char.isWhitespace r3
  let (a5, _) ← takeLit (strOf "(") r4
  some (a1 ++ a2 ++ a3 ++ a4 ++ a5)

/-- Matches are trimmed per pattern, then de-duplicated keeping first
occurrences (`[...new Set(functions)]`). -/
def extractFunctionSignatures (code : Str) : List Str :=
  let lines := splitOnChar '\n' code
  (((lines.filterMap matchFunctionDecl).map strTrim)
    ++ ((lines.filterMap matchMethodDecl).map strTrim)
    ++ ((lines.filterMap matchFnDecl).map strTrim)
    ++ ((lines.filterMap matchDefDecl).map strTrim)).eraseDups

/-- Capture tail of the class regex: `class\s+(\w+)`, returning the name. -/
def classNameTail (r : Str) : Option Str := do
  let (_, r1) ← takeLit (strOf "class") r
  let (_, r2) ← takeCharsPlus Char.isWhitespace r1
  let (name, _) ← takeCharsPlus isWordChar r2
  some name

/-- `^(export\s+)?(abstract\s+)?class\s+(\w+)`, capture group 3. -/
def matchClassName (l : Str) : Option Str :=
  tryOptDrop (strOf "export") (tryOptDrop (strOf "abstract") classNameTail) l

def extractClassNames (code : Str) : List Str :=
  (splitOnChar '\n' code).filterMap matchClassName

def NOTE_KEYWORDS : List Str :=
  [strOf "TODO", strOf "FIXME", strOf "HACK", strOf "XXX", strOf "BUG", strOf "NOTE"]

/-- Does `l` contain `kw` with a word boundary (`\b`) on both sides? -/
def hasWordBounded (kw : Str) (l : Str) : Bool :=
  (List.range (l.length + 1)).any fun i =>
    leadsWith kw (l.drop i)
      && (i == 0 || !isWordChar (l.getD (i - 1) ' '))
      && !isWordChar (l.getD (i + kw.length) ' ')

/-- `^.*\b(TODO|FIXME|HACK|XXX|BUG|NOTE)\b.*$` (whole-line match). -/
def matchNoteLine (l : Str) : Option Str :=
  if NOTE_KEYWORDS.any (fun kw => hasWordBounded kw l) then some l else none

def extractErrorPatterns (code : Str) : List Str :=
  ((splitOnChar '\n' code).filterMap matchNoteLine).map strTrim

/-! ## Compression strategies (`compression.ts`) -/

/-- The tool-specific keys of the structured input descriptor
(`Record<string, unknown>`) that the compression strategies read. -/
structure ToolInput where
  file_path : Option Str := none
  filePath : Option Str := none
  command : Option Str := none
  pattern : Option Str := none

def compressFileRead (toolInput : Option ToolInput) (output : Str) : Str :=
  let lines := splitOnChar '\n' output
  let filePath := jsOrStr (toolInput.bind (·.file_path)) (toolInput.bind (·.filePath))
  let parts : List Str :=
    (if truthyStr filePath then [strOf "File: " ++ filePath.getD []] else [])
    ++ (let imports := extractImports output
        if imports.length > 0 then
          [strOf "\nImports:\n" ++ List.intercalate (strOf "\n") (imports.take 10)]
        else [])
    ++ (let exps := extractExports output
        if exps.length > 0 then
          [strOf "\nExports:\n" ++ List.intercalate (strOf "\n") (exps.take 10)]
        else [])
    ++ (let funcs := extractFunctionSignatures output
        if funcs.length > 0 then
          [strOf "\nFunctions:\n" ++ List.intercalate (strOf "\n") (funcs.take 15)]
        else [])
    ++ (let classes := extractClassNames output
        if classes.length > 0 then
          [strOf "\nClasses: " ++ List.intercalate (strOf ", ") classes]
        else [])
    ++ (let errs := extractErrorPatterns output
        if errs.length > 0 then
          [strOf "\nNotes:\n" ++ List.intercalate (strOf "\n") (errs.take 5)]
        else [])
    ++ (if lines.length > 15 then
          [strOf "\nFirst 10 lines:\n" ++ List.intercalate (strOf "\n") (lines.take 10),
           strOf "\nLast 5 lines:\n" ++ List.intercalate (strOf "\n") (lines.drop (lines.length - 5))]
        else [])
  List.intercalate (strOf "\n") parts

def compressBashOutput (toolInput : Option ToolInput) (output : Str) : Str :=
  let lines := splitOnChar '\n' output
  let command := toolInput.bind (·.command)
  let parts : List Str :=
    (if truthyStr command then
       [strOf "Command: " ++ ((splitOnChar '\n' (command.getD [])).headD []).take 100]
     else [])
    ++ (let errorLines := lines.filter fun l =>
          let ll := toLowerStr l
          strHas (strOf "error") ll || strHas (strOf "failed") ll
            || strHas (strOf "exception") ll || strHas (strOf "warning") ll
        if errorLines.length > 0 then
          [strOf "\nErrors/Warnings:\n" ++ List.intercalate (strOf "\n") (errorLines.take 10)]
        else [])
    ++ (let successLines := lines.filter fun l =>
          let ll := toLowerStr l
          strHas (strOf "success") ll || strHas (strOf "passed") ll
            || strHas (strOf "completed") ll || strHas (strOf "done") ll
        if successLines.length > 0 then
          [strOf "\nSuccess:\n" ++ List.intercalate (strOf "\n") (successLines.take 5)]
        else [])
    ++ (if lines.length > 20 then
          [strOf "\nOutput (" ++ natStr lines.length ++ strOf " lines):",
           List.intercalate (strOf "\n") (lines.take 10),
           strOf "...",
           List.intercalate (strOf "\n") (lines.drop (lines.length - 5))]
        else [strOf "\nOutput:\n" ++ output])
  List.intercalate (strOf "\n") parts

def compressGrepOutput (toolInput : Option ToolInput) (output : Str) : Str :=
  let lines := (splitOnChar '\n' output).filter (fun l => !l.isEmpty)
  let pat := toolInput.bind (·.pattern)
  let files := ((lines.map fun l => (splitOnChar ':' l).headD []).filter
    (fun s => !s.isEmpty)).eraseDups
  let parts : List Str :=
    (if truthyStr pat then [strOf "Pattern: " ++ pat.getD []] else [])
    ++ [strOf "Found " ++ natStr lines.length ++ strOf " matches in "
          ++ natStr files.length ++ strOf " files"]
    ++ [strOf "\nTop matches:\n" ++ List.intercalate (strOf "\n") (lines.take 10)]
    ++ (if lines.length > 10 then
          [strOf "\n... and " ++ natStr (lines.length - 10) ++ strOf " more matches"]
        else [])
  List.intercalate (strOf "\n") parts

/-- Group glob result lines by parent directory, preserving first-appearance
order of directories (JS object insertion order; the special ordering of
integer-like JS object keys is not modeled — no claim depends on it). -/
def globGroup (lines : List Str) : List (Str × List Str) :=
  lines.foldl
    (fun acc line =>
      let segs := splitOnChar '/' line
      let dir0 := List.intercalate (strOf "/") (segs.take (segs.length - 1))
      let dir := if dir0.isEmpty then strOf "." else dir0
      let file :=
        match segs.getLast? with
        | some s => if s.isEmpty then line else s
        | none => line
      match acc.find? (fun p => p.1 == dir) with
      | some _ => acc.map (fun p => if p.1 == dir then (p.1, p.2 ++ [file]) else p)
      | none => acc ++ [(dir, [file])])
    []

def compressGlobOutput (toolInput : Option ToolInput) (output : Str) : Str :=
  let lines := (splitOnChar '\n' output).filter (fun l => !l.isEmpty)
  let pat := toolInput.bind (·.pattern)
  let dirs := globGroup lines
  let sortedDirs :=
    (List.insertionSort (fun a b : Str × List Str => b.2.length ≤ a.2.length) dirs).take 5
  let groupParts := sortedDirs.foldl
    (fun acc p =>
      acc ++ [strOf "\n" ++ p.1 ++ strOf "/ (" ++ natStr p.2.length ++ strOf " files)"]
        ++ [List.intercalate (strOf "\n") ((p.2.take 5).map (fun f => strOf "  " ++ f))]
        ++ (if p.2.length > 5 then
              [strOf "  ... and " ++ natStr (p.2.length - 5) ++ strOf " more"]
            else []))
    []
  let parts : List Str :=
    (if truthyStr pat then [strOf "Pattern: " ++ pat.getD []] else [])
    ++ [strOf "Found " ++ natStr lines.length ++ strOf " files"]
    ++ groupParts
  List.intercalate (strOf "\n") parts

def compressEditOutput (toolInput : Option ToolInput) (output : Str) : Str :=
  let filePath := jsOrStr (toolInput.bind (·.file_path)) (toolInput.bind (·.filePath))
  let fileName :=
    match filePath with
    | some fp =>
      (match (splitOnChar '/' fp).getLast? with
       | some s => if s.isEmpty then strOf "file" else s
       | none => strOf "file")
    | none => strOf "file"
  strOf "File: " ++ fileName
    ++ strOf "\nPath: " ++ (if truthyStr filePath then filePath.getD [] else strOf "unknown")
    ++ strOf "\nChanges applied.\n\n" ++ output.take 500

def compressGeneric (output : Str) : Str :=
  let lines := splitOnChar '\n' output
  if lines.length ≤ 30 then output
  else
    List.intercalate (strOf "\n")
      (lines.take 15
        ++ [strOf "\n... (" ++ natStr (lines.length - 25) ++ strOf " lines omitted) ...\n"]
        ++ lines.drop (lines.length - 10))

def TARGET_COMPRESSED_SIZE : Nat := 2000
def COMPRESSION_THRESHOLD : Nat := 3000

/-- The marker appended by `truncateToTarget` (16 characters). -/
def TRUNCATION_MARKER : Str := strOf "\n... (truncated)"

def truncateToTarget (text : Str) : Str :=
  if text.length ≤ TARGET_COMPRESSED_SIZE then text
  else text.take TARGET_COMPRESSED_SIZE ++ TRUNCATION_MARKER

/-- The `switch (tool)` dispatch inside `compressToolOutput`. -/
def compressStrategy (toolName : Str) (toolInput : Option ToolInput) (output : Str) : Str :=
  let tool := toLowerStr toolName
  if tool = strOf "read" then compressFileRead toolInput output
  else if tool = strOf "bash" then compressBashOutput toolInput output
  else if tool = strOf "grep" then compressGrepOutput toolInput output
  else if tool = strOf "glob" then compressGlobOutput toolInput output
  else if tool = strOf "edit" ∨ tool = strOf "write" ∨ tool = strOf "update" then
    compressEditOutput toolInput output
  else compressGeneric output

structure CompressionResult where
  compressed : Str
  wasCompressed : Bool
  originalSize : Nat
deriving DecidableEq

/-- `compressToolOutput` from `compression.ts`.  The source's `autoCompress`
parameter defaults to `true`; here it is explicit. -/
def compressToolOutput (toolName : Str) (toolInput : Option ToolInput) (output : Str)
    (autoCompress : Bool) : CompressionResult :=
  let originalSize := output.length
  if !autoCompress || originalSize < COMPRESSION_THRESHOLD then
    ⟨output, false, originalSize⟩
  else
    ⟨truncateToTarget (compressStrategy toolName toolInput output), true, originalSize⟩

/-! ## Cross-process deduplication (`src/utils/dedup.ts`)

The on-disk dedup log is modeled by its parsed content: the list of entries
that survive JSON parsing (corrupt lines are skipped upstream of the state we
model).  `JSON.stringify(toolInput)` is modeled by an abstract serialized
string `inputJson`.  The `md5` content hash is idealized as the identity on
the hashed string (hash collisions are out of scope): two checks collide
exactly when their key strings `source:tool:JSON(input).slice(0,200)` are
equal. -/

structure DedupEntry where
  timestamp : Nat
  hash : Str
  source : Str
deriving DecidableEq

def DEDUP_WINDOW_MS : Nat := 60000

/-- The hashed content: `` `${source}:${toolName}:${JSON.stringify(toolInput).slice(0, 200)}` ``. -/
def dedupHash (source toolName inputJson : Str) : Str :=
  source ++ strOf ":" ++ toolName ++ strOf ":" ++ inputJson.take 200

/-- One locked check of `isDuplicateAcrossProcesses`: returns the reported
verdict (`true` = duplicate) and the resulting on-disk log.  On a duplicate
the log is left as it was read; otherwise the pruned list plus the new entry
is persisted. -/
def isDuplicateAcrossProcesses (log : List DedupEntry) (now : Nat)
    (source toolName inputJson : Str) : Bool × List DedupEntry :=
  let hash := dedupHash source toolName inputJson
  let entries := log.filter fun e => now - e.timestamp < DEDUP_WINDOW_MS
  if entries.any (fun e => e.hash == hash) then
    (true, log)
  else
    (false, entries ++ [⟨now, hash, source⟩])

/-! ## File locking (`src/utils/lock.ts`)

`withMindLock` wraps a caller-supplied unit of work in mkdir / lock-file
creation / acquire, and a `try`/`finally` release.  The effectful unit of
work is modeled by the trace of lock events it performs itself plus its
outcome (`Except.error` models a thrown exception, which `finally` lets
propagate after running the release). -/

inductive LockEvent where
  | acquire
  | release
deriving DecidableEq

/-- `withMindLock` over the trace model: acquire before the unit of work,
release exactly once afterwards, propagating the work's outcome. -/
def withMindLock {ε α : Type} (work : List LockEvent × Except ε α) :
    List LockEvent × Except ε α :=
  (LockEvent.acquire :: (work.1 ++ [LockEvent.release]), work.2)

/-! ## Helpers (`src/utils/helpers.ts`) -/

/-- The ten closed observation categories of `ObservationType` in
`src/types.ts`. -/
def OBSERVATION_TYPES : List Str :=
  [strOf "discovery", strOf "decision", strOf "problem", strOf "solution",
   strOf "pattern", strOf "warning", strOf "success", strOf "refactor",
   strOf "bugfix", strOf "feature"]

def classifyObservationType (toolName output : Str) : Str :=
  let lower := toLowerStr output
  if strHas (strOf "error") lower || strHas (strOf "failed") lower
      || strHas (strOf "exception") lower then
    strOf "problem"
  else if strHas (strOf "success") lower || strHas (strOf "passed") lower
      || strHas (strOf "completed") lower then
    strOf "success"
  else if strHas (strOf "warning") lower || strHas (strOf "deprecated") lower then
    strOf "warning"
  else
    let tool := toLowerStr toolName
    if tool = strOf "read" ∨ tool = strOf "glob" ∨ tool = strOf "grep" then
      strOf "discovery"
    else if tool = strOf "edit" ∨ tool = strOf "update" then
      (if strHas (strOf "fix") lower || strHas (strOf "bug") lower then strOf "bugfix"
       else strOf "refactor")
    else if tool = strOf "write" then strOf "feature"
    else strOf "discovery"

/-! ## Mind open/recovery and backup pruning (`src/core/mind.ts`) -/

def CORRUPTION_PATTERNS : List Str :=
  [strOf "Deserialization", strOf "UnexpectedVariant", strOf "Invalid",
   strOf "corrupt", strOf "validation failed", strOf "unable to recover",
   strOf "table of contents", strOf "version mismatch"]

/-- `CORRUPTION_PATTERNS.some(p => msg.includes(p))` (case-sensitive). -/
def isCorruptionError (msg : Str) : Bool :=
  CORRUPTION_PATTERNS.any fun p => strHas p msg

def MAX_FILE_SIZE_MB : Nat := 100

/-- Outcome of the locked open/recovery section of `Mind.open`. -/
inductive MindOpenResult where
  /-- The file did not exist; a new empty store was created. -/
  | createdNew
  /-- The file exceeded the size ceiling; it was renamed to a timestamped
  backup (`renamed = true`) or left in place if the rename failed, and a
  fresh store was created. -/
  | freshAfterOversize (renamed : Bool)
  /-- The engine opened the existing file. -/
  | openedExisting
  /-- The engine's open call failed with a recognized corruption signature;
  the file was renamed to a timestamped backup (`renamed = true`) or deleted
  if the rename failed, and a fresh store was created. -/
  | freshAfterCorruption (renamed : Bool)
  /-- The engine's open call failed with an unrecognized message; the error
  propagates to the caller. -/
  | openFailed (msg : Str)
deriving DecidableEq

/-- The decision logic of `Mind.open`, abstracted over the observable
filesystem/engine facts: whether the store file exists, its size in bytes,
the engine `use` outcome for an existing file (`none` = opened, `some msg` =
raised with message `msg`), and whether the backup rename succeeds.
`fileSize / (1024*1024) > 100` over JS floats is exact (a power-of-two
divisor only shifts the exponent), so it is modeled by the integer comparison
`sizeBytes > 100 * 1024 * 1024`. -/
def mindOpen (fileExists : Bool) (sizeBytes : Nat) (useResult : Option Str)
    (renameOk : Bool) : MindOpenResult :=
  if !fileExists then
    .createdNew
  else if sizeBytes > MAX_FILE_SIZE_MB * 1024 * 1024 then
    .freshAfterOversize renameOk
  else
    match useResult with
    | none => .openedExisting
    | some msg =>
      if isCorruptionError msg then .freshAfterCorruption renameOk
      else .openFailed msg

/-- Does a directory entry match `pruneBackups`' backup regex
`` `^${baseName}\.backup-\d+$` `` (with the base name's dot literal, as for
the default base `mind.mv2`)? -/
def matchesBackup (baseName f : Str) : Bool :=
  leadsWith (baseName ++ strOf ".backup-") f
    && (let rest := f.drop (baseName.length + 8)
        !rest.isEmpty && rest.all Char.isDigit)

/-- Numeric value of a digit string. -/
def digitsVal (s : Str) : Nat :=
  s.foldl (fun acc c => acc * 10 + (c.toNat - '0'.toNat)) 0

/-- `parseInt(f.split("-").pop() || "0", 10)`: the timestamp embedded in a
backup file name.  For names matching the backup regex the last `-`-segment
is a nonempty digit string; `parseInt`'s leading-digit parse is modeled by
`takeWhile isDigit` (its `NaN` result on digit-free input cannot arise for
matched names). -/
def backupTime (f : Str) : Nat :=
  let seg :=
    match (splitOnChar '-' f).getLast? with
    | some s => if s.isEmpty then strOf "0" else s
    | none => strOf "0"
  digitsVal (seg.takeWhile Char.isDigit)

/-- `pruneBackups`: the directory listing after the prune, assuming the
best-effort deletions succeed.  Backups are sorted by descending embedded
timestamp (`.sort((a, b) => b.time - a.time)` is a stable descending sort,
modeled by `insertionSort` with the matching relation) and everything past
the first `keepCount` is deleted. -/
def pruneBackups (files : List Str) (baseName : Str) (keepCount : Nat) : List Str :=
  let backups := files.filter fun f => matchesBackup baseName f
  let sorted := List.insertionSort (fun a b => backupTime b ≤ backupTime a) backups
  let doomed := sorted.drop keepCount
  files.filter fun f => !doomed.contains f

/-! ## `Mind.remember` source attribution (`src/core/mind.ts`)

Observation metadata is modeled as an association list of string keys and
string values; the JS object spread `{ ...m, k: v }`, whose later keys
override earlier ones, is modeled by removing any binding of `k` and
appending the new one. -/

abbrev Metadata := List (Str × Str)

def getKey (m : Metadata) (k : Str) : Option Str :=
  (m.find? fun p => p.1 == k).map (·.2)

def setKey (m : Metadata) (k v : Str) : Metadata :=
  (m.filter fun p => !(p.1 == k)) ++ [(k, v)]

def VALID_SOURCES : List Str := [strOf "opencode", strOf "claude-code"]

/-- `rawSource && VALID_SOURCES.includes(rawSource) ? rawSource : "opencode"`
(an absent or empty raw source is falsy). -/
def effectiveSource (rawSource : Option Str) : Str :=
  match rawSource with
  | some s => if !s.isEmpty && VALID_SOURCES.contains s then s else strOf "opencode"
  | none => strOf "opencode"

structure RememberInput where
  type : Str
  tool : Option Str
  summary : Str
  content : Str
  metadata : Metadata

structure Observation where
  id : Str
  timestamp : Nat
  type : Str
  tool : Option Str
  summary : Str
  content : Str
  metadata : Metadata

/-- `(input.metadata?.sessionId as string) || this.sessionId`. -/
def effectiveSessionId (input : RememberInput) (mindSessionId : Str) : Str :=
  match getKey input.metadata (strOf "sessionId") with
  | some s => if s.isEmpty then mindSessionId else s
  | none => mindSessionId

/-- The observation record built by `Mind.remember` before the locked engine
write (`id` and `now` stand for `generateId()` and `Date.now()`). -/
def mkObservation (input : RememberInput) (id : Str) (now : Nat)
    (mindSessionId : Str) : Observation :=
  { id := id
    timestamp := now
    type := input.type
    tool := input.tool
    summary := input.summary
    content := input.content
    metadata :=
      setKey (setKey input.metadata (strOf "sessionId") (effectiveSessionId input mindSessionId))
        (strOf "source")
        (effectiveSource (getKey input.metadata (strOf "source"))) }

/-! ## Helper lemmas -/

theorem length_TRUNCATION_MARKER : TRUNCATION_MARKER.length = 16 := by decide

theorem length_truncateToTarget_le (t : Str) :
    (truncateToTarget t).length ≤ TARGET_COMPRESSED_SIZE + TRUNCATION_MARKER.length := by
  unfold truncateToTarget
  split
  · next h => calc t.length ≤ TARGET_COMPRESSED_SIZE := h
      _ ≤ _ := Nat.le_add_right _ _
  · next h =>
    rw [List.length_append, List.length_take]
    omega

/-- A 3000-character single-line output (used as the concrete oversized
input below). -/
def c1Output : Str := List.replicate 3000 'a'

theorem c1Output_length : c1Output.length = 3000 := by
  unfold c1Output
  exact List.length_replicate 3000 'a'

theorem splitOnChar_of_not_mem {c : Char} {l : List Char} (h : c ∉ l) :
    splitOnChar c l = [l] := by
  induction l with
  | nil => rfl
  | cons a rest ih =>
    have hac : (a == c) = false := by
      simp only [beq_eq_false_iff_ne, ne_eq]
      intro hEq; exact h (hEq ▸ List.mem_cons_self a rest)
    have ih' := ih (fun hm => h (List.mem_cons_of_mem a hm))
    simp [splitOnChar, hac, ih']

theorem compressGeneric_c1Output : compressGeneric c1Output = c1Output := by
  have h : '\n' ∉ c1Output := by
    intro hm
    have h2 : '\n' = 'a' := List.eq_of_mem_replicate (hm : '\n' ∈ List.replicate 3000 'a')
    simp at h2
  unfold compressGeneric
  rw [splitOnChar_of_not_mem h]
  simp

theorem compressStrategy_c1Output :
    compressStrategy (strOf "x") none c1Output = c1Output := by
  unfold compressStrategy
  rw [if_neg (by decide), if_neg (by decide), if_neg (by decide), if_neg (by decide),
    if_neg (by decide)]
  exact compressGeneric_c1Output

theorem c1Output_wasCompressed :
    (compressToolOutput (strOf "x") none c1Output true).wasCompressed = true := by
  simp [compressToolOutput, c1Output_length, COMPRESSION_THRESHOLD]

theorem dedupHash_inj_source {s1 s2 t j : Str} (h : dedupHash s1 t j = dedupHash s2 t j) :
    s1 = s2 := by
  unfold dedupHash at h
  exact List.append_cancel_right (List.append_cancel_right
    (List.append_cancel_right (List.append_cancel_right h)))

theorem dedupHash_inj_tool {s t1 t2 j : Str} (h : dedupHash s t1 j = dedupHash s t2 j) :
    t1 = t2 := by
  unfold dedupHash at h
  have h1 := List.append_cancel_right (List.append_cancel_right h)
  exact List.append_cancel_left h1

theorem dedupHash_inj_input {s t j1 j2 : Str} (h : dedupHash s t j1 = dedupHash s t j2) :
    j1.take 200 = j2.take 200 := by
  unfold dedupHash at h
  simp only [List.append_assoc] at h
  have h1 := List.append_cancel_left h
  have h2 := List.append_cancel_left h1
  have h3 := List.append_cancel_left h2
  exact List.append_cancel_left h3

theorem isDup_empty (now : Nat) (s t j : Str) :
    isDuplicateAcrossProcesses [] now s t j = (false, [⟨now, dedupHash s t j, s⟩]) := by
  simp [isDuplicateAcrossProcesses]

theorem isDup_single_ne (e : DedupEntry) (now : Nat) (s t j : Str)
    (h : e.hash ≠ dedupHash s t j) :
    (isDuplicateAcrossProcesses [e] now s t j).1 = false := by
  simp only [isDuplicateAcrossProcesses]
  by_cases hw : now - e.timestamp < DEDUP_WINDOW_MS <;> simp [hw, h]

theorem effectiveSource_mem (rawSource : Option Str) :
    effectiveSource rawSource ∈ VALID_SOURCES := by
  rcases rawSource with _ | s
  · decide
  · by_cases h : (!s.isEmpty && VALID_SOURCES.contains s) = true
    · have hv := (Bool.and_eq_true _ _).mp h
      simp only [effectiveSource, h, if_true]
      exact List.elem_iff.mp hv.2
    · simp only [effectiveSource, if_neg h]
      decide

theorem effectiveSource_preserves {s : Str} (hmem : s ∈ VALID_SOURCES) :
    effectiveSource (some s) = s := by
  have h : (!s.isEmpty && VALID_SOURCES.contains s) = true := by
    refine (Bool.and_eq_true _ _).mpr ⟨?_, List.elem_iff.mpr hmem⟩
    have hmem2 : s = strOf "opencode" ∨ s = strOf "claude-code" := by
      simpa [VALID_SOURCES] using hmem
    rcases hmem2 with h | h <;> (rw [h]; decide)
  simp only [effectiveSource, h, if_true]

theorem getKey_setKey (m : Metadata) (k v : Str) : getKey (setKey m k v) k = some v := by
  unfold getKey setKey
  rw [List.find?_append]
  have hnone : List.find? (fun p => p.1 == k) (m.filter fun p => !(p.1 == k)) = none := by
    rw [List.find?_eq_none]
    intro x hx
    have h2 := (List.mem_filter.mp hx).2
    simp only [Bool.not_eq_true'] at h2
    simp [h2]
  simp [hnone, List.find?]

/-- Anything that survives the deletion of `sorted.drop k` and satisfies `p`
sits among `sorted.take k`, so (for duplicate-free listings) at most `k` such
files remain. -/
theorem survivors_filter_length_le {α : Type} [BEq α] [LawfulBEq α]
    (files : List α) (p : α → Bool) (sorted : List α) (k : Nat)
    (hperm : sorted.Perm (files.filter p)) (hnd : files.Nodup) :
    ((files.filter fun f => !(sorted.drop k).contains f).filter p).length ≤ k := by
  have hsub : ((files.filter fun f => !(sorted.drop k).contains f).filter p)
      ⊆ sorted.take k := by
    intro f hf
    rw [List.mem_filter] at hf
    obtain ⟨hf1, hfp⟩ := hf
    rw [List.mem_filter] at hf1
    obtain ⟨hffiles, hnotdoomed⟩ := hf1
    have hfb : f ∈ files.filter p := List.mem_filter.mpr ⟨hffiles, hfp⟩
    have hfsorted : f ∈ sorted := hperm.mem_iff.mpr hfb
    have hsplit : f ∈ sorted.take k ++ sorted.drop k := by
      rw [List.take_append_drop]; exact hfsorted
    rcases List.mem_append.mp hsplit with h | h
    · exact h
    · exfalso
      have hc : (sorted.drop k).contains f = true := List.elem_iff.mpr h
      rw [hc] at hnotdoomed
      exact Bool.false_ne_true hnotdoomed
  have hnd2 : ((files.filter fun f => !(sorted.drop k).contains f).filter p).Nodup :=
    List.Nodup.filter _ (List.Nodup.filter _ hnd)
  calc ((files.filter fun f => !(sorted.drop k).contains f).filter p).length
      ≤ (sorted.take k).length := (hnd2.subperm hsub).length_le
    _ ≤ k := List.length_take_le _ _

/-! ## Claim theorems -/

/-- C1 counterexample: the claim "`compressed.length ≤ the target size (2000
characters)`" fails on the code.  A single-line 3000-character output with an
unrecognized tool passes through `compressGeneric` unchanged and is then cut
to 2000 characters *plus* the 16-character truncation marker, giving a
compressed length of 2016 > 2000 (while `wasCompressed` is `true`). -/
theorem compress_target_size_counterexample :
    (compressToolOutput (strOf "x") none c1Output true).wasCompressed = true ∧
    ¬ ((compressToolOutput (strOf "x") none c1Output true).compressed.length
        ≤ TARGET_COMPRESSED_SIZE) := by
  have hmain : compressToolOutput (strOf "x") none c1Output true
      = ⟨truncateToTarget (compressStrategy (strOf "x") none c1Output), true,
          c1Output.length⟩ := by
    simp only [compressToolOutput]
    rw [if_neg (by simp [c1Output_length, COMPRESSION_THRESHOLD])]
  rw [hmain]
  constructor
  · rfl
  · rw [compressStrategy_c1Output]
    unfold truncateToTarget
    rw [if_neg (by rw [c1Output_length]; unfold TARGET_COMPRESSED_SIZE; omega)]
    rw [List.length_append, List.length_take, length_TRUNCATION_MARKER, c1Output_length]
    unfold TARGET_COMPRESSED_SIZE
    omega

/-- C1 (amended): for every tool name, input descriptor, and output text at
or above the 3000-character compression threshold with compression enabled,
`compressToolOutput` returns `wasCompressed = true`, `originalSize` equal to
the input text's length, and `compressed.length` at most the 2000-character
target *plus the 16-character truncation marker* (2016). -/
theorem compress_large_enabled (toolName : Str) (toolInput : Option ToolInput)
    (output : Str) (h : COMPRESSION_THRESHOLD ≤ output.length) :
    (compressToolOutput toolName toolInput output true).wasCompressed = true ∧
    (compressToolOutput toolName toolInput output true).originalSize = output.length ∧
    (compressToolOutput toolName toolInput output true).compressed.length
      ≤ TARGET_COMPRESSED_SIZE + TRUNCATION_MARKER.length := by
  have hmain : compressToolOutput toolName toolInput output true
      = ⟨truncateToTarget (compressStrategy toolName toolInput output), true,
          output.length⟩ := by
    simp only [compressToolOutput]
    rw [if_neg (by simp [Nat.not_lt.mpr h])]
  rw [hmain]
  exact ⟨rfl, rfl, length_truncateToTarget_le _⟩

/-- C1 witness: the amended claim at the concrete 3000-character input. -/
theorem compress_large_enabled_witness :
    (compressToolOutput (strOf "x") none c1Output true).wasCompressed = true ∧
    (compressToolOutput (strOf "x") none c1Output true).originalSize = c1Output.length ∧
    (compressToolOutput (strOf "x") none c1Output true).compressed.length
      ≤ TARGET_COMPRESSED_SIZE + TRUNCATION_MARKER.length :=
  compress_large_enabled (strOf "x") none c1Output
    (by rw [c1Output_length]; decide)

/-- C2 counterexample: the claim "a check with ... a different input returns
'not duplicate'" fails on the code.  Two *different* inputs whose JSON
serializations agree on their first 200 characters (here 200 copies of `a`
followed by `x` versus `y`) hash identically, so the second check reports
"duplicate" even though the input differs. -/
theorem dedup_truncated_input_counterexample :
    (List.replicate 200 'a' ++ ['x'] : Str) ≠ (List.replicate 200 'a' ++ ['y'] : Str) ∧
    (isDuplicateAcrossProcesses [] 0 (strOf "s") (strOf "t")
      (List.replicate 200 'a' ++ ['x'])).1 = false ∧
    (isDuplicateAcrossProcesses
      (isDuplicateAcrossProcesses [] 0 (strOf "s") (strOf "t")
        (List.replicate 200 'a' ++ ['x'])).2
      1 (strOf "s") (strOf "t") (List.replicate 200 'a' ++ ['y'])).1 = true := by
  set_option maxRecDepth 8000 in decide

/-- C2 (amended): for every source tag, tool name, and serialized input, a
first check against an empty dedup log reports "not duplicate"; a second
check with identical arguments within the dedup window reports "duplicate"; a
check with a different source reports "not duplicate"; a check with a
different tool reports "not duplicate"; and a check with a different input
reports "not duplicate" *provided* its JSON serialization differs from the
original's within the first 200 characters (the hash covers
`source + tool + JSON(input).slice(0, 200)` only, and the md5 content hash is
idealized as collision-free). -/
theorem dedup_check_behavior (source toolName inputJson : Str) (t1 : Nat) :
    (isDuplicateAcrossProcesses [] t1 source toolName inputJson).1 = false ∧
    (∀ t2 : Nat, t2 - t1 < DEDUP_WINDOW_MS →
      (isDuplicateAcrossProcesses
        (isDuplicateAcrossProcesses [] t1 source toolName inputJson).2
        t2 source toolName inputJson).1 = true) ∧
    (∀ (t2 : Nat) (source2 : Str), source2 ≠ source →
      (isDuplicateAcrossProcesses
        (isDuplicateAcrossProcesses [] t1 source toolName inputJson).2
        t2 source2 toolName inputJson).1 = false) ∧
    (∀ (t2 : Nat) (tool2 : Str), tool2 ≠ toolName →
      (isDuplicateAcrossProcesses
        (isDuplicateAcrossProcesses [] t1 source toolName inputJson).2
        t2 source tool2 inputJson).1 = false) ∧
    (∀ (t2 : Nat) (json2 : Str), json2.take 200 ≠ inputJson.take 200 →
      (isDuplicateAcrossProcesses
        (isDuplicateAcrossProcesses [] t1 source toolName inputJson).2
        t2 source toolName json2).1 = false) := by
  rw [isDup_empty]
  refine ⟨rfl, ?_, ?_, ?_, ?_⟩
  · intro t2 hw
    simp [isDuplicateAcrossProcesses, hw]
  · intro t2 source2 hne
    exact isDup_single_ne _ _ _ _ _
      (fun hEq => hne (dedupHash_inj_source hEq).symm)
  · intro t2 tool2 hne
    exact isDup_single_ne _ _ _ _ _
      (fun hEq => hne (dedupHash_inj_tool hEq).symm)
  · intro t2 json2 hne
    exact isDup_single_ne _ _ _ _ _
      (fun hEq => hne (dedupHash_inj_input hEq).symm)

/-- C2 witness: the amended claim at concrete arguments. -/
theorem dedup_check_behavior_witness :
    (isDuplicateAcrossProcesses [] 0 (strOf "s") (strOf "t") (strOf "j")).1 = false ∧
    (isDuplicateAcrossProcesses
      (isDuplicateAcrossProcesses [] 0 (strOf "s") (strOf "t") (strOf "j")).2
      1 (strOf "s") (strOf "t") (strOf "j")).1 = true ∧
    (isDuplicateAcrossProcesses
      (isDuplicateAcrossProcesses [] 0 (strOf "s") (strOf "t") (strOf "j")).2
      1 (strOf "r") (strOf "t") (strOf "j")).1 = false ∧
    (isDuplicateAcrossProcesses
      (isDuplicateAcrossProcesses [] 0 (strOf "s") (strOf "t") (strOf "j")).2
      1 (strOf "s") (strOf "u") (strOf "j")).1 = false ∧
    (isDuplicateAcrossProcesses
      (isDuplicateAcrossProcesses [] 0 (strOf "s") (strOf "t") (strOf "j")).2
      1 (strOf "s") (strOf "t") (strOf "k")).1 = false := by
  obtain ⟨h1, h2, h3, h4, h5⟩ := dedup_check_behavior (strOf "s") (strOf "t") (strOf "j") 0
  exact ⟨h1, h2 1 (by decide), h3 1 (strOf "r") (by decide), h4 1 (strOf "u") (by decide),
    h5 1 (strOf "k") (by decide)⟩

/-- C3: for every tool name, input descriptor, and output text, if
compression is disabled or the text is below the 3000-character threshold,
`compressToolOutput` returns the text unchanged with `wasCompressed = false`
and `originalSize` the text's length — in particular, disabling compression
on an oversized input still returns it verbatim. -/
theorem compress_small_or_disabled (toolName : Str) (toolInput : Option ToolInput)
    (output : Str) (autoCompress : Bool)
    (h : autoCompress = false ∨ output.length < COMPRESSION_THRESHOLD) :
    compressToolOutput toolName toolInput output autoCompress
      = ⟨output, false, output.length⟩ := by
  simp only [compressToolOutput]
  rcases h with h | h
  · rw [if_pos (by simp [h])]
  · rw [if_pos (by simp [h])]

/-- C3 witness: a small output with compression enabled, and the oversized
3000-character output with compression disabled. -/
theorem compress_small_or_disabled_witness :
    compressToolOutput (strOf "read") none (strOf "hi") true
      = ⟨strOf "hi", false, (strOf "hi").length⟩ ∧
    compressToolOutput (strOf "read") none c1Output false
      = ⟨c1Output, false, c1Output.length⟩ :=
  ⟨compress_small_or_disabled _ _ _ _ (Or.inr (by decide)),
   compress_small_or_disabled _ _ _ _ (Or.inl rfl)⟩

/-- C4: `withMindLock` acquires the lock before running the caller-supplied
unit of work and releases it exactly once afterwards (the wrapper adds
exactly one acquire and one release around the work's own trace), and the
work's outcome — returned value or thrown exception (`Except.error`) — is
propagated unchanged after the release. -/
theorem withMindLock_acquire_release {ε α : Type} (work : List LockEvent × Except ε α) :
    (withMindLock work).1 = LockEvent.acquire :: (work.1 ++ [LockEvent.release]) ∧
    (withMindLock work).1.count LockEvent.release = work.1.count LockEvent.release + 1 ∧
    (withMindLock work).1.count LockEvent.acquire = work.1.count LockEvent.acquire + 1 ∧
    (withMindLock work).2 = work.2 := by
  refine ⟨rfl, ?_, ?_, rfl⟩
  · simp [withMindLock, List.count_cons, List.count_append]
  · simp [withMindLock, List.count_cons, List.count_append]

/-- C5: when `Mind.open` finds an existing, not-oversized store file and the
engine's open call fails, a message matching a corruption signature leads to
a fresh store (after a backup rename, or a delete when the rename fails),
while a non-matching message is propagated to the caller. -/
theorem mindOpen_existing_recovery (sizeBytes : Nat) (msg : Str) (renameOk : Bool)
    (hsize : sizeBytes ≤ MAX_FILE_SIZE_MB * 1024 * 1024) :
    (isCorruptionError msg = true →
      mindOpen true sizeBytes (some msg) renameOk
        = .freshAfterCorruption renameOk) ∧
    (isCorruptionError msg = false →
      mindOpen true sizeBytes (some msg) renameOk = .openFailed msg) := by
  constructor <;> intro h <;> simp [mindOpen, h, Nat.not_lt.mpr hsize]

/-- C5 witness: a recognized corruption message recovers; an unrecognized
message propagates. -/
theorem mindOpen_existing_recovery_witness :
    mindOpen true 0 (some (strOf "Deserialization error")) true
      = .freshAfterCorruption true ∧
    mindOpen true 0 (some (strOf "boom")) false = .openFailed (strOf "boom") :=
  ⟨(mindOpen_existing_recovery 0 (strOf "Deserialization error") true (by decide)).1
      (by decide),
   (mindOpen_existing_recovery 0 (strOf "boom") false (by decide)).2 (by decide)⟩

/-- C6: when some entry surviving the window prune matches the hash, the
check reports "duplicate" and returns the on-disk log unmodified; otherwise
it persists the pruned list with the new `{now, hash, source}` entry appended
and reports "not duplicate". -/
theorem dedup_log_effect (log : List DedupEntry) (now : Nat)
    (source toolName inputJson : Str) :
    ((∃ e ∈ log, now - e.timestamp < DEDUP_WINDOW_MS
        ∧ e.hash = dedupHash source toolName inputJson) →
      isDuplicateAcrossProcesses log now source toolName inputJson = (true, log)) ∧
    ((∀ e ∈ log, now - e.timestamp < DEDUP_WINDOW_MS →
        e.hash ≠ dedupHash source toolName inputJson) →
      isDuplicateAcrossProcesses log now source toolName inputJson =
        (false, (log.filter fun e => now - e.timestamp < DEDUP_WINDOW_MS)
          ++ [⟨now, dedupHash source toolName inputJson, source⟩])) := by
  constructor
  · rintro ⟨e, hmem, hw, hh⟩
    have hany : ((log.filter fun e => now - e.timestamp < DEDUP_WINDOW_MS).any
        fun e => e.hash == dedupHash source toolName inputJson) = true := by
      rw [List.any_eq_true]
      exact ⟨e, List.mem_filter.mpr ⟨hmem, by simp [hw]⟩, by simp [hh]⟩
    simp only [isDuplicateAcrossProcesses]
    rw [if_pos hany]
  · intro hall
    have hany : ((log.filter fun e => now - e.timestamp < DEDUP_WINDOW_MS).any
        fun e => e.hash == dedupHash source toolName inputJson) = false := by
      rw [List.any_eq_false]
      intro e hmem
      have h2 := List.mem_filter.mp hmem
      have hw : now - e.timestamp < DEDUP_WINDOW_MS := by
        have := h2.2; simpa using this
      simpa using hall e h2.1 hw
    simp only [isDuplicateAcrossProcesses]
    rw [if_neg (by simp [hany])]

/-- C6 witness: a matching surviving entry leaves the log unchanged; an empty
log gets the new entry appended. -/
theorem dedup_log_effect_witness :
    isDuplicateAcrossProcesses
        [⟨0, dedupHash (strOf "s") (strOf "t") (strOf "j"), strOf "s"⟩] 1
        (strOf "s") (strOf "t") (strOf "j")
      = (true, [⟨0, dedupHash (strOf "s") (strOf "t") (strOf "j"), strOf "s"⟩]) ∧
    isDuplicateAcrossProcesses [] 5 (strOf "s") (strOf "t") (strOf "j")
      = (false, [⟨5, dedupHash (strOf "s") (strOf "t") (strOf "j"), strOf "s"⟩]) := by
  constructor
  · exact (dedup_log_effect _ _ _ _ _).1
      ⟨_, List.mem_singleton.mpr rfl, by decide, rfl⟩
  · have h := (dedup_log_effect ([] : List DedupEntry) 5
      (strOf "s") (strOf "t") (strOf "j")).2 (by intro e he; cases he)
    simpa using h

/-- C7: the observation record built by `Mind.remember` stores
`metadata.source = effectiveSource(raw input source)`, which always lies in
`{"opencode", "claude-code"}`; an absent or invalid input source yields
`"opencode"` (by `effectiveSource`'s defining equation) and a valid input
source is preserved. -/
theorem remember_source_valid (input : RememberInput) (id : Str) (now : Nat)
    (sess : Str) :
    getKey (mkObservation input id now sess).metadata (strOf "source")
        = some (effectiveSource (getKey input.metadata (strOf "source"))) ∧
    effectiveSource (getKey input.metadata (strOf "source")) ∈ VALID_SOURCES ∧
    (∀ s : Str, getKey input.metadata (strOf "source") = some s → s ∈ VALID_SOURCES →
      effectiveSource (getKey input.metadata (strOf "source")) = s) := by
  refine ⟨?_, effectiveSource_mem _, ?_⟩
  · show getKey (setKey _ _ _) _ = _
    exact getKey_setKey _ _ _
  · intro s hs hmem
    rw [hs]
    exact effectiveSource_preserves hmem

/-- C7 witness: a valid `claude-code` input source is preserved in the stored
observation metadata. -/
theorem remember_source_valid_witness :
    getKey (mkObservation
        ⟨strOf "discovery", none, strOf "sum", strOf "cont",
          [(strOf "source", strOf "claude-code")]⟩
        (strOf "id1") 7 (strOf "sess")).metadata (strOf "source")
      = some (strOf "claude-code") := by
  obtain ⟨h1, _, h3⟩ := remember_source_valid
    ⟨strOf "discovery", none, strOf "sum", strOf "cont",
      [(strOf "source", strOf "claude-code")]⟩
    (strOf "id1") 7 (strOf "sess")
  rw [h1, h3 (strOf "claude-code") (by decide) (by decide)]

/-- C8: for a duplicate-free directory listing, after `pruneBackups` (as
called by `Mind.open` with `keepCount = 3`) at most 3 files matching the
backup pattern for the store's base name remain. -/
theorem pruneBackups_at_most_three (files : List Str) (baseName : Str)
    (hnd : files.Nodup) :
    ((pruneBackups files baseName 3).filter fun f => matchesBackup baseName f).length
      ≤ 3 := by
  simp only [pruneBackups]
  exact survivors_filter_length_le files (fun f => matchesBackup baseName f)
    (List.insertionSort (fun a b => backupTime b ≤ backupTime a)
      (files.filter fun f => matchesBackup baseName f)) 3
    (List.perm_insertionSort (fun a b => backupTime b ≤ backupTime a) _) hnd

/-- C8 witness: a listing with five backups (plus the store and an unrelated
file) keeps at most 3 backups. -/
theorem pruneBackups_at_most_three_witness :
    ((pruneBackups
        [strOf "mind.mv2", strOf "mind.mv2.backup-5", strOf "mind.mv2.backup-3",
         strOf "mind.mv2.backup-9", strOf "mind.mv2.backup-1", strOf "mind.mv2.backup-7",
         strOf "other.txt"]
        (strOf "mind.mv2") 3).filter
      fun f => matchesBackup (strOf "mind.mv2") f).length ≤ 3 :=
  pruneBackups_at_most_three _ _ (by decide)

/-- C9: whenever `compressToolOutput` reports `wasCompressed = true`, the
compressed text is at most 2016 characters (the 2000-character target plus
the 16-character `TRUNCATION_MARKER`), and the marker is appended exactly
when the dispatched strategy's intermediate result exceeded 2000 characters:
above the target the result is the 2000-character cut plus the marker, at or
below the target the strategy result is returned as-is. -/
theorem compress_truncation_marker (toolName : Str) (toolInput : Option ToolInput)
    (output : Str) (autoCompress : Bool)
    (h : (compressToolOutput toolName toolInput output autoCompress).wasCompressed = true) :
    (compressToolOutput toolName toolInput output autoCompress).compressed.length
        ≤ TARGET_COMPRESSED_SIZE + TRUNCATION_MARKER.length ∧
    (TARGET_COMPRESSED_SIZE < (compressStrategy toolName toolInput output).length →
      (compressToolOutput toolName toolInput output autoCompress).compressed =
        (compressStrategy toolName toolInput output).take TARGET_COMPRESSED_SIZE
          ++ TRUNCATION_MARKER) ∧
    ((compressStrategy toolName toolInput output).length ≤ TARGET_COMPRESSED_SIZE →
      (compressToolOutput toolName toolInput output autoCompress).compressed =
        compressStrategy toolName toolInput output) := by
  by_cases hg : (!autoCompress || decide (output.length < COMPRESSION_THRESHOLD)) = true
  · exfalso
    simp only [compressToolOutput] at h
    rw [if_pos hg] at h
    exact Bool.false_ne_true h
  · have hmain : compressToolOutput toolName toolInput output autoCompress
        = ⟨truncateToTarget (compressStrategy toolName toolInput output), true,
            output.length⟩ := by
      simp only [compressToolOutput]
      rw [if_neg hg]
    rw [hmain]
    refine ⟨length_truncateToTarget_le _, ?_, ?_⟩
    · intro hlt
      show truncateToTarget _ = _
      unfold truncateToTarget
      rw [if_neg (by omega)]
    · intro hle
      show truncateToTarget _ = _
      unfold truncateToTarget
      rw [if_pos hle]

/-- C9 witness: the compressed-size bound at the concrete 3000-character
input. -/
theorem compress_truncation_marker_witness :
    (compressToolOutput (strOf "x") none c1Output true).compressed.length
      ≤ TARGET_COMPRESSED_SIZE + TRUNCATION_MARKER.length :=
  (compress_truncation_marker (strOf "x") none c1Output true c1Output_wasCompressed).1

/-- C10: `classifyObservationType` always returns one of the ten closed
category tags, and its rules apply in the fixed priority order: outputs
containing `error`/`failed`/`exception` (case-insensitively) are `problem`
regardless of tool; otherwise success patterns give `success`; then warning
patterns give `warning`; then the tool-specific rules apply
(read/glob/grep → `discovery`; edit/update → `bugfix` when the output
mentions fix/bug, else `refactor`; write → `feature`), with `discovery` as
the final default. -/
theorem classify_observation_spec (toolName output : Str) :
    classifyObservationType toolName output ∈ OBSERVATION_TYPES ∧
    ((strHas (strOf "error") (toLowerStr output) || strHas (strOf "failed") (toLowerStr output)
        || strHas (strOf "exception") (toLowerStr output)) = true →
      classifyObservationType toolName output = strOf "problem") ∧
    ((strHas (strOf "error") (toLowerStr output) || strHas (strOf "failed") (toLowerStr output)
        || strHas (strOf "exception") (toLowerStr output)) = false →
      (strHas (strOf "success") (toLowerStr output) || strHas (strOf "passed") (toLowerStr output)
        || strHas (strOf "completed") (toLowerStr output)) = true →
      classifyObservationType toolName output = strOf "success") ∧
    ((strHas (strOf "error") (toLowerStr output) || strHas (strOf "failed") (toLowerStr output)
        || strHas (strOf "exception") (toLowerStr output)) = false →
      (strHas (strOf "success") (toLowerStr output) || strHas (strOf "passed") (toLowerStr output)
        || strHas (strOf "completed") (toLowerStr output)) = false →
      (strHas (strOf "warning") (toLowerStr output)
        || strHas (strOf "deprecated") (toLowerStr output)) = true →
      classifyObservationType toolName output = strOf "warning") ∧
    ((strHas (strOf "error") (toLowerStr output) || strHas (strOf "failed") (toLowerStr output)
        || strHas (strOf "exception") (toLowerStr output)) = false →
      (strHas (strOf "success") (toLowerStr output) || strHas (strOf "passed") (toLowerStr output)
        || strHas (strOf "completed") (toLowerStr output)) = false →
      (strHas (strOf "warning") (toLowerStr output)
        || strHas (strOf "deprecated") (toLowerStr output)) = false →
      ((toLowerStr toolName = strOf "read" ∨ toLowerStr toolName = strOf "glob"
          ∨ toLowerStr toolName = strOf "grep") →
        classifyObservationType toolName output = strOf "discovery") ∧
      ((toLowerStr toolName = strOf "edit" ∨ toLowerStr toolName = strOf "update") →
        ((strHas (strOf "fix") (toLowerStr output)
            || strHas (strOf "bug") (toLowerStr output)) = true →
          classifyObservationType toolName output = strOf "bugfix") ∧
        ((strHas (strOf "fix") (toLowerStr output)
            || strHas (strOf "bug") (toLowerStr output)) = false →
          classifyObservationType toolName output = strOf "refactor")) ∧
      (toLowerStr toolName = strOf "write" →
        classifyObservationType toolName output = strOf "feature") ∧
      (¬ (toLowerStr toolName = strOf "read" ∨ toLowerStr toolName = strOf "glob"
            ∨ toLowerStr toolName = strOf "grep") →
        ¬ (toLowerStr toolName = strOf "edit" ∨ toLowerStr toolName = strOf "update") →
        toLowerStr toolName ≠ strOf "write" →
        classifyObservationType toolName output = strOf "discovery")) := by
  refine ⟨?_, ?_, ?_, ?_, ?_⟩
  · simp only [classifyObservationType]
    split_ifs <;> decide
  · intro h1
    simp only [classifyObservationType]
    rw [if_pos h1]
  · intro h1 h2
    simp only [classifyObservationType]
    rw [if_neg (by simp [h1]), if_pos h2]
  · intro h1 h2 h3
    simp only [classifyObservationType]
    rw [if_neg (by simp [h1]), if_neg (by simp [h2]), if_pos h3]
  · intro h1 h2 h3
    refine ⟨?_, ?_, ?_, ?_⟩
    · intro ht
      simp only [classifyObservationType]
      rw [if_neg (by simp [h1]), if_neg (by simp [h2]), if_neg (by simp [h3]), if_pos ht]
    · intro ht
      constructor <;> intro hf <;>
        · simp only [classifyObservationType]
          rw [if_neg (by simp [h1]), if_neg (by simp [h2]), if_neg (by simp [h3])]
          rw [if_neg ?side, if_pos ht]
          case side =>
            rcases ht with ht | ht <;> rw [ht] <;> decide
          simp [hf]
    · intro ht
      simp only [classifyObservationType]
      rw [if_neg (by simp [h1]), if_neg (by simp [h2]), if_neg (by simp [h3])]
      rw [if_neg ?s1, if_neg ?s2]
      case s1 => rw [ht]; decide
      case s2 => rw [ht]; decide
      rw [if_pos ht]
    · intro hn1 hn2 hn3
      simp only [classifyObservationType]
      rw [if_neg (by simp [h1]), if_neg (by simp [h2]), if_neg (by simp [h3]),
        if_neg hn1, if_neg hn2, if_neg hn3]

/-- C10 witness: an error-bearing output is `problem` regardless of tool; an
unrecognized tool with a neutral output falls through to `discovery`. -/
theorem classify_observation_spec_witness :
    classifyObservationType (strOf "bash") (strOf "Build Error: x") = strOf "problem" ∧
    classifyObservationType (strOf "task") (strOf "plain text") = strOf "discovery" :=
  ⟨(classify_observation_spec (strOf "bash") (strOf "Build Error: x")).2.1 (by decide),
   ((classify_observation_spec (strOf "task") (strOf "plain text")).2.2.2.2
      (by decide) (by decide) (by decide)).2.2.2 (by decide) (by decide) (by decide)⟩

end OpencodeBrain
